import Mathlib

/-!
Verification of the schema-coordination core of the repository
(`usecases/schema/update_property.go` and `usecases/schema/handler.go`):
the `Manager.UpdatePropertyAddDataType` operation and the `Handler` façade
(`GetSchema`, `GetSchemaSkipAuth`, `UpdateShardStatus`, `JoinNode`).

Go's in-place pointer mutation is modelled by explicit state passing:
each operation returns its error result, the resulting in-memory schema,
and a record of which external collaborators (saveSchema, migrator,
metaWriter) it invoked, so that "no write is performed" claims are
expressible as facts about the returned record.
-/

namespace Weaviate

/-- `models.Principal`: the caller's identity, passed to the authorizer. -/
structure Principal where
  username : String
deriving Repr, DecidableEq

/-- `models.Property`: a property of a class; `dataType` is the Go
`DataType []string` field, the ordered list of data-type tags. -/
structure Property where
  name : String
  dataType : List String
deriving Repr, DecidableEq

/-- `models.Class`: a named class with its ordered property list. -/
structure Class where
  name : String
  properties : List Property
deriving Repr, DecidableEq

/-- `models.Schema`: the semantic schema, an ordered list of classes. -/
structure ModelsSchema where
  classes : List Class
deriving Repr, DecidableEq

/-- Modelled from the spec: `schema.GetClassByName` of the `entities/schema`
package is not under the sources; per the spec it fetches the class by name
(exact match) and class-not-found is a named error, not found silently. -/
def GetClassByName (s : ModelsSchema) (className : String) : Except String Class :=
  match s.classes.find? (fun c => c.name == className) with
  | some c => Except.ok c
  | none => Except.error ("class " ++ className ++ " not found")

/-- Modelled from the spec: `schema.GetPropertyByName` of the
`entities/schema` package is not under the sources; per the spec it fetches
the property by name, absence being a named not-found error. -/
def GetPropertyByName (c : Class) (propName : String) : Except String Property :=
  match c.properties.find? (fun p => p.name == propName) with
  | some p => Except.ok p
  | none => Except.error ("property " ++ propName ++ " not found on class " ++ c.name)

/-- The Go loop of `dataTypeAlreadyContained`: case-sensitive exact string
membership of `needle` in `haystack`. -/
def dataTypeAlreadyContained (haystack : List String) (needle : String) : Bool :=
  haystack.any (fun hay => hay == needle)

/-- Applies `f` to the first property named `propName`, leaving the rest of
the list untouched: the effect of Go's `prop.DataType = append(...)` through
the `*models.Property` pointer returned by the by-name lookup. -/
def setFirstProp (propName : String) (f : Property → Property) :
    List Property → List Property
  | [] => []
  | p :: ps =>
    if p.name == propName then f p :: ps else p :: setFirstProp propName f ps

/-- Applies `g` to the first class named `className`, leaving the rest of
the list untouched: the effect of mutating through the `*models.Class`
pointer returned by the by-name lookup. -/
def setFirstClass (className : String) (g : Class → Class) :
    List Class → List Class
  | [] => []
  | c :: cs =>
    if c.name == className then g c :: cs else c :: setFirstClass className g cs

/-- The in-memory schema after Go's in-place append of `newDataType` to the
found property's `DataType` slice. -/
def appendDataType (s : ModelsSchema) (className propName newDataType : String) :
    ModelsSchema :=
  ⟨setFirstClass className
    (fun c => ⟨c.name,
      setFirstProp propName
        (fun p => ⟨p.name, p.dataType ++ [newDataType]⟩) c.properties⟩)
    s.classes⟩

/-- The `Manager` of `usecases/schema`, with its collaborators modelled as
oracles: `authorize` is the authorizer's verdict per (principal, verb,
resource) — `none` is a nil error; `saveSchemaErr` is the result the
`saveSchema` call would return; `migratorErr` is the result the migrator's
`UpdatePropertyAddDataType` would return. -/
structure Manager where
  authorize : Principal → String → String → Option String
  saveSchemaErr : Option String
  migratorErr : Option String

/-- Outcome of one `Manager.UpdatePropertyAddDataType` call: the returned
error, the in-memory schema afterwards, and whether `saveSchema` and the
migrator were invoked. -/
structure UpdateResult where
  err : Option String
  schema : ModelsSchema
  saveCalled : Bool
  migratorCalled : Bool
deriving Repr, DecidableEq

/-- `Manager.UpdatePropertyAddDataType` from `update_property.go`:
authorize `update schema/objects`; look up the class then the property;
if the data type is already contained return nil untouched; otherwise
append it in place, call `saveSchema` — on save error return nil without
calling the migrator — and otherwise return the migrator's result. -/
def Manager.UpdatePropertyAddDataType (m : Manager) (s : ModelsSchema)
    (principal : Principal) (className propName newDataType : String) :
    UpdateResult :=
  match m.authorize principal "update" "schema/objects" with
  | some e => ⟨some e, s, false, false⟩
  | none =>
    match GetClassByName s className with
    | Except.error e => ⟨some e, s, false, false⟩
    | Except.ok cls =>
      match GetPropertyByName cls propName with
      | Except.error e => ⟨some e, s, false, false⟩
      | Except.ok prop =>
        if dataTypeAlreadyContained prop.dataType newDataType then
          ⟨none, s, false, false⟩
        else
          let s' := appendDataType s className propName newDataType
          match m.saveSchemaErr with
          | some _ => ⟨none, s', true, false⟩
          | none => ⟨m.migratorErr, s', true, true⟩

/-- `schema.Schema` of the `entities/schema` package: the wrapper the
handler returns, whose `Objects` field is a (possibly nil) pointer to a
`models.Schema`. -/
structure SchemaSchema where
  Objects : Option ModelsSchema
deriving Repr, DecidableEq

/-- Modelled from the spec: `config.DefaultRaftPort` of `usecases/config`
is not under the sources; per the spec the default consensus network port
is a fixed, documented constant used when a join request omits one. -/
def DefaultRaftPort : Nat := 8300

/-- Go's `strings.Split` on a one-character separator, over the character
list: never returns the empty list, so indexing the result at 0 is total. -/
def goSplit (sep : Char) : List Char → List (List Char)
  | [] => [[]]
  | c :: rest =>
    if c == sep then [] :: goSplit sep rest
    else
      match goSplit sep rest with
      | [] => [[c]]
      | g :: gs => (c :: g) :: gs

/-- `strings.Split(nodeAddr, ":")[0]`: the part of the string before its
first colon (the whole string when it has none). -/
def hostPart (s : String) : String :=
  String.mk ((goSplit ':' s.data).headD [])

/-- The `Handler` of `usecases/schema/handler.go`, with its collaborators
modelled as oracles: `authorize` is the `Authorizer` field's verdict;
`readOnlySchema` is what `metaReader.ReadOnlySchema()` returns;
`nodeHostname` is `clusterState.NodeHostname` (`none` for ok=false);
`metaUpdateShardStatus` and `metaJoin` are the results the `metaWriter`
would return for those proposals. -/
structure Handler where
  authorize : Principal → String → String → Option String
  readOnlySchema : ModelsSchema
  nodeHostname : String → Option String
  metaUpdateShardStatus : String → String → String → Option String
  metaJoin : String → String → Bool → Option String

/-- `Handler.getSchema`: wraps `metaReader.ReadOnlySchema()` as the
`Objects` field of a `schema.Schema`. -/
def Handler.getSchema (h : Handler) : SchemaSchema :=
  ⟨some h.readOnlySchema⟩

/-- `Handler.GetSchemaSkipAuth`: the unauthenticated local read path. -/
def Handler.GetSchemaSkipAuth (h : Handler) : SchemaSchema :=
  h.getSchema

/-- `Handler.GetSchema`: authorize `list schema/*`, returning the zero
`schema.Schema{}` (nil `Objects`) with the error on failure, else the
locally cached schema. -/
def Handler.GetSchema (h : Handler) (principal : Principal) :
    Option String × SchemaSchema :=
  match h.authorize principal "list" "schema/*" with
  | some e => (some e, ⟨none⟩)
  | none => (none, h.getSchema)

/-- Outcome of `Handler.UpdateShardStatus`: the returned error and the
list of `metaWriter.UpdateShardStatus` proposals made, each with its
(class, shard, status) arguments. -/
structure ShardStatusResult where
  err : Option String
  metaWriterCalls : List (String × String × String)
deriving Repr, DecidableEq

/-- `Handler.UpdateShardStatus`: authorize
`update schema/<class>/shards/<shard>`; on failure return the error with
zero collaborator calls, else forward to `metaWriter.UpdateShardStatus`. -/
def Handler.UpdateShardStatus (h : Handler) (principal : Principal)
    (cls shard status : String) : ShardStatusResult :=
  match h.authorize principal "update"
      ("schema/" ++ cls ++ "/shards/" ++ shard) with
  | some e => ⟨some e, []⟩
  | none => ⟨h.metaUpdateShardStatus cls shard status, [(cls, shard, status)]⟩

/-- Outcome of `Handler.JoinNode`: the returned error and the list of
`metaWriter.Join` proposals made, each with its (nodeID, raftAddr, voter)
arguments. -/
structure JoinResult where
  err : Option String
  joinCalls : List (String × String × Bool)
deriving Repr, DecidableEq

/-- `Handler.JoinNode`: resolve the node's address via
`clusterState.NodeHostname`; if unresolved fail before proposing; strip
anything from the first colon on; default the port to
`config.DefaultRaftPort` when the caller passed an empty string; then
forward to `metaWriter.Join`. -/
def Handler.JoinNode (h : Handler) (node nodePort : String) (voter : Bool) :
    JoinResult :=
  match h.nodeHostname node with
  | none => ⟨some ("could not resolve addr for node id " ++ node), []⟩
  | some nodeAddr =>
    let addr := hostPart nodeAddr
    let port := if nodePort == "" then toString DefaultRaftPort else nodePort
    ⟨h.metaJoin node (addr ++ ":" ++ port) voter,
      [(node, addr ++ ":" ++ port, voter)]⟩

/-- The source's lookup sequence: class by name, then property by name,
propagating the first not-found error. -/
def lookupProp (s : ModelsSchema) (cn pn : String) : Except String Property :=
  match GetClassByName s cn with
  | Except.error e => Except.error e
  | Except.ok c => GetPropertyByName c pn

/-- A manager whose authorizer accepts everything and whose collaborators
all succeed. -/
def okManager : Manager := ⟨fun _ _ _ => none, none, none⟩

/-- A manager whose `saveSchema` fails. -/
def failSaveManager : Manager := ⟨fun _ _ _ => none, some "disk full", none⟩

/-- A manager whose authorizer rejects every request. -/
def denyManager : Manager := ⟨fun _ _ _ => some "unauthorized", none, none⟩

/-- A concrete principal. -/
def alice : Principal := ⟨"alice"⟩

/-- The spec's scenario property: `tags` with data types `["text"]`. -/
def tagsProp : Property := ⟨"tags", ["text"]⟩

/-- The spec's scenario class `Article` holding `tags`. -/
def articleClass : Class := ⟨"Article", [tagsProp]⟩

/-- The spec's scenario snapshot. -/
def articleSchema : ModelsSchema := ⟨[articleClass]⟩

/-- A snapshot in which `tags` already lists `text` twice. -/
def dupArticleSchema : ModelsSchema := ⟨[⟨"Article", [⟨"tags", ["text", "text"]⟩]⟩]⟩

/-- A handler whose authorizer accepts everything, resolving node ids to
`10.0.0.5:7946`, with collaborators that succeed. -/
def okHandler : Handler :=
  ⟨fun _ _ _ => none, articleSchema, fun _ => some "10.0.0.5:7946",
    fun _ _ _ => none, fun _ _ _ => none⟩

/-- A handler whose authorizer rejects every request. -/
def denyHandler : Handler :=
  ⟨fun _ _ _ => some "unauthorized", articleSchema, fun _ => some "10.0.0.5:7946",
    fun _ _ _ => none, fun _ _ _ => none⟩

/-- A handler whose cluster topology resolves no node id. -/
def unresolvedHandler : Handler :=
  ⟨fun _ _ _ => none, articleSchema, fun _ => none,
    fun _ _ _ => none, fun _ _ _ => none⟩

theorem dataTypeAlreadyContained_iff (l : List String) (x : String) :
    dataTypeAlreadyContained l x = true ↔ x ∈ l := by
  simp [dataTypeAlreadyContained]

theorem find?_setFirstProp (pn : String) (f : Property → Property)
    (hf : ∀ q, (f q).name = q.name) (ps : List Property) (q : Property)
    (h : ps.find? (fun x => x.name == pn) = some q) :
    (setFirstProp pn f ps).find? (fun x => x.name == pn) = some (f q) := by
  induction ps with
  | nil => simp [List.find?] at h
  | cons p ps ih =>
    cases hc : (p.name == pn) with
    | true =>
      simp only [List.find?_cons, hc, Option.some.injEq] at h
      subst h
      have hfc : ((f p).name == pn) = true := by rw [hf]; exact hc
      simp only [setFirstProp, hc, if_true]
      simp only [List.find?_cons, hfc]
    | false =>
      simp only [List.find?_cons, hc] at h
      simp only [setFirstProp, hc, Bool.false_eq_true, if_false]
      simp only [List.find?_cons, hc]
      exact ih h

theorem find?_setFirstClass (cn : String) (g : Class → Class)
    (hg : ∀ c, (g c).name = c.name) (cs : List Class) (c : Class)
    (h : cs.find? (fun x => x.name == cn) = some c) :
    (setFirstClass cn g cs).find? (fun x => x.name == cn) = some (g c) := by
  induction cs with
  | nil => simp [List.find?] at h
  | cons c₀ cs ih =>
    cases hc : (c₀.name == cn) with
    | true =>
      simp only [List.find?_cons, hc, Option.some.injEq] at h
      subst h
      have hgc : ((g c₀).name == cn) = true := by rw [hg]; exact hc
      simp only [setFirstClass, hc, if_true]
      simp only [List.find?_cons, hgc]
    | false =>
      simp only [List.find?_cons, hc] at h
      simp only [setFirstClass, hc, Bool.false_eq_true, if_false]
      simp only [List.find?_cons, hc]
      exact ih h

theorem GetClassByName_appendDataType (s : ModelsSchema) (cn pn nd : String)
    (cls : Class) (hc : GetClassByName s cn = Except.ok cls) :
    GetClassByName (appendDataType s cn pn nd) cn =
      Except.ok ⟨cls.name,
        setFirstProp pn (fun p => ⟨p.name, p.dataType ++ [nd]⟩) cls.properties⟩ := by
  unfold GetClassByName at hc ⊢
  cases hfind : s.classes.find? (fun c => c.name == cn) with
  | none => rw [hfind] at hc; cases hc
  | some c =>
    rw [hfind] at hc
    injection hc with hc
    subst hc
    have := find?_setFirstClass cn
      (fun c => ⟨c.name, setFirstProp pn (fun p => ⟨p.name, p.dataType ++ [nd]⟩) c.properties⟩)
      (fun _ => rfl) s.classes c hfind
    simp only [appendDataType]
    rw [this]

theorem GetPropertyByName_setFirstProp (c : Class) (pn nd : String)
    (prop : Property) (hp : GetPropertyByName c pn = Except.ok prop) :
    GetPropertyByName
      ⟨c.name, setFirstProp pn (fun p => ⟨p.name, p.dataType ++ [nd]⟩) c.properties⟩ pn =
      Except.ok ⟨prop.name, prop.dataType ++ [nd]⟩ := by
  unfold GetPropertyByName at hp ⊢
  cases hfind : c.properties.find? (fun p => p.name == pn) with
  | none => rw [hfind] at hp; cases hp
  | some p =>
    rw [hfind] at hp
    injection hp with hp
    subst hp
    have := find?_setFirstProp pn (fun p => ⟨p.name, p.dataType ++ [nd]⟩)
      (fun _ => rfl) c.properties p hfind
    simp only
    rw [this]

theorem lookupProp_appendDataType (s : ModelsSchema) (cn pn nd : String)
    (cls : Class) (prop : Property)
    (hc : GetClassByName s cn = Except.ok cls)
    (hp : GetPropertyByName cls pn = Except.ok prop) :
    lookupProp (appendDataType s cn pn nd) cn pn =
      Except.ok ⟨prop.name, prop.dataType ++ [nd]⟩ := by
  unfold lookupProp
  rw [GetClassByName_appendDataType s cn pn nd cls hc]
  exact GetPropertyByName_setFirstProp cls pn nd prop hp

theorem goSplit_colon_append (host rest : List Char) (hhost : ':' ∉ host) :
    goSplit ':' (host ++ ':' :: rest) = host :: goSplit ':' rest := by
  induction host with
  | nil => simp [goSplit]
  | cons c host ih =>
    rw [List.mem_cons, not_or] at hhost
    obtain ⟨h1, h2⟩ := hhost
    have hc : (c == ':') = false := by
      simp only [beq_eq_false_iff_ne]
      exact fun h => h1 h.symm
    simp only [List.cons_append, goSplit, hc, Bool.false_eq_true, if_false, List.append_eq]
    rw [ih h2]

theorem hostPart_mk_append (host rest : List Char) (hhost : ':' ∉ host) :
    hostPart (String.mk (host ++ ':' :: rest)) = String.mk host := by
  unfold hostPart
  rw [show (String.mk (host ++ ':' :: rest)).data = host ++ ':' :: rest from rfl]
  rw [goSplit_colon_append host rest hhost]
  rfl

/-- C1: when the class and property exist and `newDataType` is already an
element (case-sensitive exact match) of the property's DataType list, an
authorized `UpdatePropertyAddDataType` returns nil, leaves the schema (and
hence the property's DataType list) unchanged, and performs no write:
neither `saveSchema` nor the migrator is invoked. -/
theorem C1_duplicate_add_noop (m : Manager) (s : ModelsSchema) (p : Principal)
    (cn pn nd : String) (cls : Class) (prop : Property)
    (hauth : m.authorize p "update" "schema/objects" = none)
    (hc : GetClassByName s cn = Except.ok cls)
    (hp : GetPropertyByName cls pn = Except.ok prop)
    (hmem : nd ∈ prop.dataType) :
    Manager.UpdatePropertyAddDataType m s p cn pn nd = ⟨none, s, false, false⟩ := by
  have hdup : dataTypeAlreadyContained prop.dataType nd = true :=
    (dataTypeAlreadyContained_iff _ _).mpr hmem
  simp [Manager.UpdatePropertyAddDataType, hauth, hc, hp, hdup]

/-- Witness for C1: the spec's scenario — adding `text` to `tags` which
already lists `["text"]` succeeds and changes nothing. -/
theorem C1_witness :
    Manager.UpdatePropertyAddDataType okManager articleSchema alice
      "Article" "tags" "text" = ⟨none, articleSchema, false, false⟩ :=
  C1_duplicate_add_noop okManager articleSchema alice "Article" "tags" "text"
    articleClass tagsProp rfl rfl rfl (by decide)

/-- C3: when the new type was absent and has been appended, a failing
`saveSchema` is swallowed — the call returns nil (success) rather than the
error, and the migrator is not invoked (though the in-memory append and the
save attempt did happen). -/
theorem C3_save_error_swallowed (m : Manager) (s : ModelsSchema) (p : Principal)
    (cn pn nd : String) (cls : Class) (prop : Property) (e : String)
    (hauth : m.authorize p "update" "schema/objects" = none)
    (hc : GetClassByName s cn = Except.ok cls)
    (hp : GetPropertyByName cls pn = Except.ok prop)
    (habs : nd ∉ prop.dataType)
    (hsave : m.saveSchemaErr = some e) :
    Manager.UpdatePropertyAddDataType m s p cn pn nd =
      ⟨none, appendDataType s cn pn nd, true, false⟩ := by
  have hdup : dataTypeAlreadyContained prop.dataType nd = false := by
    have h := mt (dataTypeAlreadyContained_iff prop.dataType nd).mp habs
    simpa using h
  simp [Manager.UpdatePropertyAddDataType, hauth, hc, hp, hdup, hsave]

/-- Witness for C3: with a failing save, adding `text[]` to `tags` returns
nil and skips the migrator. -/
theorem C3_witness :
    Manager.UpdatePropertyAddDataType failSaveManager articleSchema alice
      "Article" "tags" "text[]" =
      ⟨none, appendDataType articleSchema "Article" "tags" "text[]", true, false⟩ :=
  C3_save_error_swallowed failSaveManager articleSchema alice "Article" "tags"
    "text[]" articleClass tagsProp "disk full" rfl rfl rfl (by decide) rfl

/-- C4: when the authorizer rejects the principal, both
`UpdatePropertyAddDataType` and `Handler.UpdateShardStatus` return that
error at once: the schema is untouched and no collaborator past
authorization (saveSchema, migrator, metaWriter) is invoked. -/
theorem C4_auth_short_circuit (m : Manager) (h : Handler) (s : ModelsSchema)
    (p q : Principal) (cn pn nd cls shard status e₁ e₂ : String)
    (hm : m.authorize p "update" "schema/objects" = some e₁)
    (hh : h.authorize q "update" ("schema/" ++ cls ++ "/shards/" ++ shard) = some e₂) :
    Manager.UpdatePropertyAddDataType m s p cn pn nd = ⟨some e₁, s, false, false⟩ ∧
    Handler.UpdateShardStatus h q cls shard status = ⟨some e₂, []⟩ := by
  constructor
  · simp [Manager.UpdatePropertyAddDataType, hm]
  · simp [Handler.UpdateShardStatus, hh]

/-- Witness for C4: the rejecting authorizer short-circuits both
operations with zero collaborator calls. -/
theorem C4_witness :
    Manager.UpdatePropertyAddDataType denyManager articleSchema alice
      "Article" "tags" "text" = ⟨some "unauthorized", articleSchema, false, false⟩ ∧
    Handler.UpdateShardStatus denyHandler alice "Article" "shard1" "READONLY" =
      ⟨some "unauthorized", []⟩ :=
  C4_auth_short_circuit denyManager denyHandler articleSchema alice alice
    "Article" "tags" "text" "Article" "shard1" "READONLY"
    "unauthorized" "unauthorized" rfl rfl

/-- C5: `Handler.JoinNode` on a node id the cluster topology cannot resolve
returns a non-nil error naming the node and never invokes the metaWriter's
`Join` — no membership change is proposed. -/
theorem C5_join_unresolvable (h : Handler) (node nodePort : String) (voter : Bool)
    (hres : h.nodeHostname node = none) :
    Handler.JoinNode h node nodePort voter =
      ⟨some ("could not resolve addr for node id " ++ node), []⟩ := by
  simp [Handler.JoinNode, hres]

/-- Witness for C5: joining an unresolvable node id fails with zero `Join`
proposals. -/
theorem C5_witness :
    Handler.JoinNode unresolvedHandler "ghost" "" true =
      ⟨some ("could not resolve addr for node id " ++ "ghost"), []⟩ :=
  C5_join_unresolvable unresolvedHandler "ghost" "" true rfl

/-- C7: with an authorized principal, when the class is absent or the class
exists but the property is absent, `UpdatePropertyAddDataType` returns the
lookup's named not-found error and changes nothing: the schema is returned
unchanged and neither `saveSchema` nor the migrator is invoked. -/
theorem C7_not_found_unchanged (m : Manager) (s : ModelsSchema) (p : Principal)
    (cn pn nd e : String)
    (hauth : m.authorize p "update" "schema/objects" = none)
    (hmiss : lookupProp s cn pn = Except.error e) :
    Manager.UpdatePropertyAddDataType m s p cn pn nd = ⟨some e, s, false, false⟩ := by
  unfold lookupProp at hmiss
  cases hc : GetClassByName s cn with
  | error e' =>
    rw [hc] at hmiss
    injection hmiss with hmiss
    subst hmiss
    simp [Manager.UpdatePropertyAddDataType, hauth, hc]
  | ok c =>
    rw [hc] at hmiss
    have hp : GetPropertyByName c pn = Except.error e := hmiss
    simp [Manager.UpdatePropertyAddDataType, hauth, hc, hp]

/-- Witness for C7: adding a type to a property of an absent class fails
with the named error and leaves everything untouched. -/
theorem C7_witness :
    Manager.UpdatePropertyAddDataType okManager articleSchema alice
      "Nope" "tags" "text" =
      ⟨some ("class " ++ "Nope" ++ " not found"), articleSchema, false, false⟩ :=
  C7_not_found_unchanged okManager articleSchema alice "Nope" "tags" "text"
    ("class " ++ "Nope" ++ " not found") rfl rfl

/-- C9: for a principal the authorizer accepts, `Handler.GetSchema` returns
without error exactly `Handler.GetSchemaSkipAuth`'s value, and both are the
metaReader's `ReadOnlySchema` result wrapped as the `Objects` field of a
`schema.Schema`. -/
theorem C9_read_paths_equivalent (h : Handler) (p : Principal)
    (hauth : h.authorize p "list" "schema/*" = none) :
    Handler.GetSchema h p = (none, Handler.GetSchemaSkipAuth h) ∧
    Handler.GetSchemaSkipAuth h = ⟨some h.readOnlySchema⟩ := by
  constructor
  · simp [Handler.GetSchema, Handler.GetSchemaSkipAuth, hauth]
  · rfl

/-- Witness for C9: on the accepting handler the two read paths agree. -/
theorem C9_witness :
    Handler.GetSchema okHandler alice = (none, Handler.GetSchemaSkipAuth okHandler) ∧
    Handler.GetSchemaSkipAuth okHandler = ⟨some okHandler.readOnlySchema⟩ :=
  C9_read_paths_equivalent okHandler alice rfl

/-- C6: when the class and property exist, the new type is absent, and
`saveSchema` succeeds, `UpdatePropertyAddDataType` returns the migrator's
result, both the save and the migrator run, and afterwards the property's
DataType list is exactly the old list with the new type appended at the
end — every previously present type preserved in order. -/
theorem C6_absent_type_appended (m : Manager) (s : ModelsSchema) (p : Principal)
    (cn pn nd : String) (cls : Class) (prop : Property)
    (hauth : m.authorize p "update" "schema/objects" = none)
    (hc : GetClassByName s cn = Except.ok cls)
    (hp : GetPropertyByName cls pn = Except.ok prop)
    (habs : nd ∉ prop.dataType)
    (hsave : m.saveSchemaErr = none) :
    Manager.UpdatePropertyAddDataType m s p cn pn nd =
      ⟨m.migratorErr, appendDataType s cn pn nd, true, true⟩ ∧
    lookupProp (appendDataType s cn pn nd) cn pn =
      Except.ok ⟨prop.name, prop.dataType ++ [nd]⟩ := by
  constructor
  · have hdup : dataTypeAlreadyContained prop.dataType nd = false := by
      have h := mt (dataTypeAlreadyContained_iff prop.dataType nd).mp habs
      simpa using h
    simp [Manager.UpdatePropertyAddDataType, hauth, hc, hp, hdup, hsave]
  · exact lookupProp_appendDataType s cn pn nd cls prop hc hp

/-- Witness for C6: the spec's scenario — adding `text[]` to `tags` whose
types are `["text"]` yields `["text", "text[]"]` and returns the migrator's
(nil) result. -/
theorem C6_witness :
    Manager.UpdatePropertyAddDataType okManager articleSchema alice
      "Article" "tags" "text[]" =
      ⟨okManager.migratorErr, appendDataType articleSchema "Article" "tags" "text[]",
        true, true⟩ ∧
    lookupProp (appendDataType articleSchema "Article" "tags" "text[]")
      "Article" "tags" = Except.ok ⟨"tags", ["text"] ++ ["text[]"]⟩ :=
  C6_absent_type_appended okManager articleSchema alice "Article" "tags" "text[]"
    articleClass tagsProp rfl rfl rfl (by decide) rfl

/-- C8: for a resolvable node, `Handler.JoinNode` builds the address passed
to the metaWriter's `Join` with the fixed default raft port when the
caller's `nodePort` is the empty string, and with exactly the supplied
value when it is non-empty. -/
theorem C8_join_port_choice (h : Handler) (node nodePort : String) (voter : Bool)
    (nodeAddr : String) (hres : h.nodeHostname node = some nodeAddr) :
    (nodePort = "" →
      Handler.JoinNode h node nodePort voter =
        ⟨h.metaJoin node (hostPart nodeAddr ++ ":" ++ toString DefaultRaftPort) voter,
          [(node, hostPart nodeAddr ++ ":" ++ toString DefaultRaftPort, voter)]⟩) ∧
    (nodePort ≠ "" →
      Handler.JoinNode h node nodePort voter =
        ⟨h.metaJoin node (hostPart nodeAddr ++ ":" ++ nodePort) voter,
          [(node, hostPart nodeAddr ++ ":" ++ nodePort, voter)]⟩) := by
  constructor
  · intro he
    subst he
    simp [Handler.JoinNode, hres]
  · intro hne
    have hb : (nodePort == "") = false := by
      simpa using hne
    simp [Handler.JoinNode, hres, hb]

/-- Witness for C8: with the hostname resolving to `10.0.0.5:7946`, an
omitted port joins at `10.0.0.5:8300` and an explicit `7000` joins at
`10.0.0.5:7000`. -/
theorem C8_witness :
    Handler.JoinNode okHandler "n1" "" true = ⟨none, [("n1", "10.0.0.5:8300", true)]⟩ ∧
    Handler.JoinNode okHandler "n1" "7000" true =
      ⟨none, [("n1", "10.0.0.5:7000", true)]⟩ := by
  constructor
  · rw [(C8_join_port_choice okHandler "n1" "" true "10.0.0.5:7946" rfl).1 rfl]
    decide
  · rw [(C8_join_port_choice okHandler "n1" "7000" true "10.0.0.5:7946" rfl).2
      (by decide)]
    decide

/-- C10: for a resolvable node whose reported hostname embeds a port — a
first colon followed by anything — `Handler.JoinNode` discards everything
from that first colon on: the address handed to the metaWriter's `Join` is
the substring before the first colon, a colon, and the chosen port. -/
theorem C10_join_strips_embedded_port (h : Handler) (node nodePort : String)
    (voter : Bool) (host rest : List Char) (hhost : ':' ∉ host)
    (hres : h.nodeHostname node = some (String.mk (host ++ ':' :: rest))) :
    Handler.JoinNode h node nodePort voter =
      ⟨h.metaJoin node (String.mk host ++ ":" ++
          (if nodePort == "" then toString DefaultRaftPort else nodePort)) voter,
        [(node, String.mk host ++ ":" ++
          (if nodePort == "" then toString DefaultRaftPort else nodePort), voter)]⟩ := by
  simp only [Handler.JoinNode, hres]
  rw [hostPart_mk_append host rest hhost]

/-- Witness for C10: the `7946` gossip port embedded in `10.0.0.5:7946` is
discarded and replaced by the chosen consensus port. -/
theorem C10_witness :
    Handler.JoinNode okHandler "n1" "" true =
      ⟨okHandler.metaJoin "n1" (String.mk "10.0.0.5".data ++ ":" ++
          (if "" == "" then toString DefaultRaftPort else "")) true,
        [("n1", String.mk "10.0.0.5".data ++ ":" ++
          (if "" == "" then toString DefaultRaftPort else ""), true)]⟩ :=
  C10_join_strips_embedded_port okHandler "n1" "" true "10.0.0.5".data "7946".data
    (by decide) (by decide)

/-- C2 counterexample: on a snapshot in which `tags` already lists `text`
twice, two authorized calls adding `text` both no-op, so afterwards the
type appears twice — not exactly once as the claim states for every
snapshot containing the class and property. -/
theorem C2_counterexample :
    (lookupProp (Manager.UpdatePropertyAddDataType okManager
        (Manager.UpdatePropertyAddDataType okManager dupArticleSchema alice
          "Article" "tags" "text").schema
        alice "Article" "tags" "text").schema "Article" "tags").map
      (fun q => q.dataType.count "text") = Except.ok 2 ∧ (2 : Nat) ≠ 1 := by
  constructor
  · rfl
  · decide

/-- C2 (amended): with an authorized principal and the class and property
present, invoking `UpdatePropertyAddDataType` twice with the same type
yields the same final schema as invoking it once, the second invocation
performs no write (it returns nil before appending or saving), and —
provided the type appeared at most once in the starting snapshot — the
type appears exactly once in the property's DataType list afterwards. -/
theorem C2_amended_idempotent_add (m : Manager) (s : ModelsSchema) (p : Principal)
    (cn pn nd : String) (cls : Class) (prop : Property)
    (hauth : m.authorize p "update" "schema/objects" = none)
    (hc : GetClassByName s cn = Except.ok cls)
    (hp : GetPropertyByName cls pn = Except.ok prop)
    (hcount : prop.dataType.count nd ≤ 1) :
    Manager.UpdatePropertyAddDataType m
        (Manager.UpdatePropertyAddDataType m s p cn pn nd).schema p cn pn nd =
      ⟨none, (Manager.UpdatePropertyAddDataType m s p cn pn nd).schema,
        false, false⟩ ∧
    (lookupProp (Manager.UpdatePropertyAddDataType m s p cn pn nd).schema cn pn).map
      (fun q => q.dataType.count nd) = Except.ok 1 := by
  cases hdup : dataTypeAlreadyContained prop.dataType nd with
  | true =>
    have hmem := (dataTypeAlreadyContained_iff _ _).mp hdup
    have h1 : Manager.UpdatePropertyAddDataType m s p cn pn nd =
        ⟨none, s, false, false⟩ := by
      simp [Manager.UpdatePropertyAddDataType, hauth, hc, hp, hdup]
    rw [h1]
    have hone : prop.dataType.count nd = 1 := by
      have h0 : prop.dataType.count nd ≠ 0 :=
        fun h => (List.count_eq_zero.mp h) hmem
      omega
    constructor
    · exact h1
    · show (lookupProp s cn pn).map (fun q => q.dataType.count nd) = Except.ok 1
      have hl : lookupProp s cn pn = Except.ok prop := by
        unfold lookupProp
        rw [hc]
        exact hp
      rw [hl]
      simp [Except.map, hone]
  | false =>
    have habs : nd ∉ prop.dataType := fun hmem => by
      rw [(dataTypeAlreadyContained_iff _ _).mpr hmem] at hdup
      cases hdup
    have h0 : prop.dataType.count nd = 0 := List.count_eq_zero.mpr habs
    have hsch : (Manager.UpdatePropertyAddDataType m s p cn pn nd).schema =
        appendDataType s cn pn nd := by
      cases hsave : m.saveSchemaErr with
      | some e => simp [Manager.UpdatePropertyAddDataType, hauth, hc, hp, hdup, hsave]
      | none => simp [Manager.UpdatePropertyAddDataType, hauth, hc, hp, hdup, hsave]
    have hc' := GetClassByName_appendDataType s cn pn nd cls hc
    have hp' := GetPropertyByName_setFirstProp cls pn nd prop hp
    have hdup' : dataTypeAlreadyContained (prop.dataType ++ [nd]) nd = true :=
      (dataTypeAlreadyContained_iff _ _).mpr
        (List.mem_append_right _ (List.Mem.head _))
    rw [hsch]
    constructor
    · simp [Manager.UpdatePropertyAddDataType, hauth, hc', hp', hdup']
    · rw [lookupProp_appendDataType s cn pn nd cls prop hc hp]
      simp [Except.map, List.count_append, h0]

/-- Witness for the amended C2: adding `text[]` twice to `tags` leaves the
schema where the first call put it, the second call writes nothing, and
`text[]` appears exactly once. -/
theorem C2_amended_witness :
    Manager.UpdatePropertyAddDataType okManager
        (Manager.UpdatePropertyAddDataType okManager articleSchema alice
          "Article" "tags" "text[]").schema alice "Article" "tags" "text[]" =
      ⟨none, (Manager.UpdatePropertyAddDataType okManager articleSchema alice
          "Article" "tags" "text[]").schema, false, false⟩ ∧
    (lookupProp (Manager.UpdatePropertyAddDataType okManager articleSchema alice
        "Article" "tags" "text[]").schema "Article" "tags").map
      (fun q => q.dataType.count "text[]") = Except.ok 1 :=
  C2_amended_idempotent_add okManager articleSchema alice "Article" "tags"
    "text[]" articleClass tagsProp rfl rfl rfl (by decide)

end Weaviate
